import Mathlib

/-!
Verification of the korin GDB pretty-printer module (extras/gdb/types.py).

The module is shallowly embedded: inspected-process memory is modelled by
total functions from addresses (Nat, 0 = null) to field contents, gdb type
descriptors by a small record, and the while-loops of the Python iterators
by fuel-indexed structural recursion (the theorems hypothesise enough fuel,
which the source loops implicitly assume through their termination
preconditions).  Floating point arithmetic of the quaternion formatter is
modelled over the reals, and the Python exception flow by an Except value.
-/

/-! ## Type Name Resolver: the lookup regex of Printer.__init__ -/

/-- One character of the character class of the lookup pattern: a word
character or a colon.  Word characters are modelled over ASCII. -/
def isWordColon (c : Char) : Bool := c.isAlphanum || c == '_' || c == ':'

/-- Model of matching the compiled pattern of Printer.__init__ against a tag
and extracting group 1, the base name.  Group 1 is the maximal prefix of
word-or-colon characters (the literal bracket that may follow is outside the
class, so no backtracking into group 1 can succeed); the optional group 2
must then cover the whole remainder: an opening angle bracket, characters
other than a newline, and a closing angle bracket as the final character of
the tag. -/
def lookupRegexMatch (s : String) : Option String :=
  let cs := s.toList
  let pre := cs.takeWhile isWordColon
  let rest := cs.dropWhile isWordColon
  if pre.isEmpty then none
  else
    match rest with
    | [] => some s
    | c :: tail =>
      if c = '<' ∧ tail.getLast? = some '>' ∧ tail.dropLast.all (fun d => d ≠ '\n') then
        some (String.mk pre)
      else
        none

/-! ## gdb type and value handles, as far as the Printer reads them -/

/-- The type codes the module distinguishes: a reference type or anything
else. -/
inductive TypeCode
  | ref
  | other
deriving DecidableEq

/-- The part of a gdb.Type that Printer.get_basic_type reads: the type code,
and the tag left after the external gdb operations target(), unqualified()
and strip_typedefs() (a type with no tag carries none). -/
structure GdbTypeInfo where
  code : TypeCode
  targetStrippedTag : Option String
  selfStrippedTag : Option String
deriving DecidableEq

/-- Printer.get_basic_type: dereference the type when it is a reference,
strip qualifiers and typedefs, and return the tag. -/
def Printer.get_basic_type (t : GdbTypeInfo) : Option String :=
  if t.code = TypeCode.ref then t.targetStrippedTag else t.selfStrippedTag

/-- The part of a gdb.Value that Printer.__call__ reads: its type, its
opaque payload, and the payload of referenced_value() (equal to the payload
when the type is not a reference). -/
structure GdbValue (V : Type) where
  type : GdbTypeInfo
  payload : V
  referencedPayload : V

/-! ## Formatter Registry: SubPrinter and Printer -/

/-- SubPrinter: a registered name together with the formatter constructor. -/
structure SubPrinter (V F : Type) where
  name : String
  typeprinter : String → V → F

/-- SubPrinter.__call__: construct the formatter from the stored name and
the value. -/
def SubPrinter.call {V F : Type} (sp : SubPrinter V F) (v : V) : F :=
  sp.typeprinter sp.name v

/-- Printer: the registry built by Printer.__init__, holding the subprinter
list and the name-keyed lookup table (the Python dict is modelled as a
function to Option). -/
structure Printer (V F : Type) where
  name : String
  subprinters : List (SubPrinter V F)
  lookup_table : String → Option (SubPrinter V F)

/-- Printer.__init__: empty subprinter list and empty lookup table. -/
def Printer.empty (V F : Type) (n : String) : Printer V F :=
  { name := n, subprinters := [], lookup_table := fun _ => none }

/-- Printer.add: append the subprinter to the list and assign it into the
lookup table under its name (a dict assignment, so a later add under the
same name overwrites an earlier one). -/
def Printer.add {V F : Type} (p : Printer V F) (nm : String)
    (tp : String → V → F) : Printer V F :=
  let sp : SubPrinter V F := { name := nm, typeprinter := tp }
  { p with
    subprinters := p.subprinters ++ [sp],
    lookup_table := fun k => if k = nm then some sp else p.lookup_table k }

/-- Printer.__call__: resolve the basic type name, match it against the
lookup regex, dereference the value when its type is a reference, and look
the base name up in the table; every failure returns none (the Python
KeyError is caught and turned into None). -/
def Printer.call {V F : Type} (p : Printer V F) (v : GdbValue V) : Option F :=
  match Printer.get_basic_type v.type with
  | none => none
  | some typename =>
    match lookupRegexMatch typename with
    | none => none
    | some basename =>
      let value := if v.type.code = TypeCode.ref then v.referencedPayload else v.payload
      match p.lookup_table basename with
      | none => none
      | some sp => some (sp.call value)

/-! ## Shared label shape of the child iterators -/

/-- The display key produced by the iterators: the Python format
expression applied to the running index. -/
def mkLabel (idx : Nat) : String := "[" ++ toString idx ++ "]"

/-! ## ArrayPrinter -/

/-- The loop of ArrayPrinter.Iterator.__next__: stop when the cursor equals
the end pointer, otherwise yield the labelled dereference of the cursor and
advance it by one element (one stride, in address units).  The loop is
fuel-indexed because the source loop terminates only under the bounded-range
precondition. -/
def ArrayPrinter.iterRun {α : Type} (deref : Nat → α) (stride : Nat) :
    Nat → Nat → Nat → Nat → List (String × α)
  | 0, _, _, _ => []
  | fuel + 1, item, stop, idx =>
    if item = stop then []
    else (mkLabel idx, deref item) :: ArrayPrinter.iterRun deref stride fuel (item + stride) stop (idx + 1)

/-- ArrayPrinter.children: iterate from the buffer pointer to the buffer
pointer advanced by count elements. -/
def ArrayPrinter.children {α : Type} (deref : Nat → α)
    (buffer count stride fuel : Nat) : List (String × α) :=
  ArrayPrinter.iterRun deref stride fuel buffer (buffer + count * stride) 0

/-- ArrayPrinter.to_string: the string branch is the unfinished TODO of the
source and returns the empty string; the other branch formats element type,
count and capacity. -/
def ArrayPrinter.to_string (elemIsChar : Bool) (elemTypeStr : String)
    (count capacity : Nat) : String :=
  if elemIsChar then ""
  else "Array " ++ elemTypeStr ++ "[" ++ toString count ++ "] with max. capacity " ++ toString capacity

/-! ## ListPrinter -/

/-- The loop of ListPrinter.Iterator.__next__: stop when the cursor equals
the end pointer, otherwise dereference the link, step to its next field
and yield its labelled data field. -/
def ListPrinter.iterRun {α : Type} (next : Nat → Nat) (data : Nat → α) :
    Nat → Nat → Nat → Nat → List (String × α)
  | 0, _, _, _ => []
  | fuel + 1, item, stop, idx =>
    if item = stop then []
    else (mkLabel idx, data item) :: ListPrinter.iterRun next data fuel (next item) stop (idx + 1)

/-- ListPrinter.children: empty when the head pointer is null, otherwise the
iterator from head to the next field of the dereferenced tail. -/
def ListPrinter.children {α : Type} (next : Nat → Nat) (data : Nat → α)
    (head tail fuel : Nat) : List (String × α) :=
  if head ≠ 0 then ListPrinter.iterRun next data fuel head (next tail) 0 else []

/-! ## Tree iterators -/

/-- make_node_iterator: while the node pointer is not null, dereference it,
step to its next field, and yield its data field. -/
def make_node_iterator {α : Type} (next : Nat → Nat) (data : Nat → α) :
    Nat → Nat → List α
  | 0, _ => []
  | fuel + 1, p => if p = 0 then [] else data p :: make_node_iterator next data fuel (next p)

/-- The descent loop of make_tree_iterator: follow left references until a
node whose left reference is null. -/
def leftmostDescent (left : Nat → Nat) : Nat → Nat → Nat
  | 0, p => p
  | fuel + 1, p => if left p = 0 then p else leftmostDescent left fuel (left p)

/-- make_tree_iterator: empty for a null root, otherwise the node iterator
started at the leftmost node reached from the root. -/
def make_tree_iterator {α : Type} (left next : Nat → Nat) (data : Nat → α)
    (root fuelL fuelN : Nat) : List α :=
  if root = 0 then [] else make_node_iterator next data fuelN (leftmostDescent left fuelL root)

/-! ## MapPrinter and SetPrinter children -/

/-- The loop body of MapPrinter.children over the already-enumerated tree
items: each pair yields its first field under the running index and its
second field under the successor index, and the index advances by two. -/
def MapPrinter.childrenAux {α β : Type} (first second : α → β) :
    List α → Nat → List (String × β)
  | [], _ => []
  | pr :: rest, idx =>
    (mkLabel idx, first pr) :: (mkLabel (idx + 1), second pr) ::
      MapPrinter.childrenAux first second rest (idx + 2)

/-- MapPrinter.children: the pair loop over the tree iterator, starting at
index zero. -/
def MapPrinter.children {α β : Type} (left next : Nat → Nat) (data : Nat → α)
    (first second : α → β) (root fuelL fuelN : Nat) : List (String × β) :=
  MapPrinter.childrenAux first second (make_tree_iterator left next data root fuelL fuelN) 0

/-- The loop body of SetPrinter.children over the already-enumerated tree
items: each item yields one labelled entry and the index advances by one. -/
def SetPrinter.childrenAux {α : Type} : List α → Nat → List (String × α)
  | [], _ => []
  | x :: rest, idx => (mkLabel idx, x) :: SetPrinter.childrenAux rest (idx + 1)

/-- SetPrinter.children: the item loop over the tree iterator, starting at
index zero. -/
def SetPrinter.children {α : Type} (left next : Nat → Nat) (data : Nat → α)
    (root fuelL fuelN : Nat) : List (String × α) :=
  SetPrinter.childrenAux (make_tree_iterator left next data root fuelL fuelN) 0

/-! ## Chain well-formedness predicates -/

/-- A null-terminated next-chain of length n: positions 0 up to n-1 hold
non-null addresses linked by the next field, and position n is null. -/
@[reducible] def NextChain (next : Nat → Nat) (a : Nat → Nat) (n : Nat) : Prop :=
  (∀ i < n, a i ≠ 0 ∧ next (a i) = a (i + 1)) ∧ a n = 0

/-- A left-descent chain of length m: positions 0 up to m-1 hold addresses
whose left reference is non-null and links to the following position, and
the left reference at position m is null. -/
@[reducible] def LeftChain (left : Nat → Nat) (l : Nat → Nat) (m : Nat) : Prop :=
  (∀ i < m, left (l i) ≠ 0 ∧ left (l i) = l (i + 1)) ∧ left (l m) = 0

/-! ## QuatPrinter -/

/-- The Python exceptions the quaternion constructor can meet. -/
inductive PyError
  | valueError
  | zeroDivisionError
deriving DecidableEq

/-- The try-block of QuatPrinter.__init__ over the reals: math.acos raises
ValueError outside the closed unit interval; the reciprocal of the sine
raises ZeroDivisionError when the sine is exactly zero; otherwise the angle
is twice the arccosine and the axis components are scaled by the
reciprocal. -/
noncomputable def QuatPrinter.tryBody (w x y z : ℝ) : Except PyError (ℝ × ℝ × ℝ × ℝ) :=
  if w < -1 ∨ 1 < w then Except.error PyError.valueError
  else
    if Real.sin (Real.arccos w) = 0 then Except.error PyError.zeroDivisionError
    else
      Except.ok (Real.arccos w * 2,
        x * (1 / Real.sin (Real.arccos w)),
        y * (1 / Real.sin (Real.arccos w)),
        z * (1 / Real.sin (Real.arccos w)))

/-- QuatPrinter.__init__: run the try-block and catch exactly
ZeroDivisionError, replacing it by angle zero and a zero axis; any other
exception propagates. -/
noncomputable def QuatPrinter.initQuat (w x y z : ℝ) : Except PyError (ℝ × ℝ × ℝ × ℝ) :=
  match QuatPrinter.tryBody w x y z with
  | Except.error PyError.zeroDivisionError => Except.ok (0, 0, 0, 0)
  | r => r

/-! ## Concrete data for the witnesses -/

/-- A type descriptor with no tag at all. -/
def sampleTypeNoTag : GdbTypeInfo :=
  { code := TypeCode.other, targetStrippedTag := none, selfStrippedTag := none }

/-- A non-reference type descriptor whose stripped tag is the Array base
name. -/
def arrayTagType : GdbTypeInfo :=
  { code := TypeCode.other, targetStrippedTag := none, selfStrippedTag := some "Array" }

/-- A concrete inspected value of the Array tag type. -/
def sampleArrayValue : GdbValue Nat :=
  { type := arrayTagType, payload := 7, referencedPayload := 7 }

/-- A first formatter constructor, recognisable by its result. -/
def ctorOne : String → Nat → Nat := fun _ _ => 1

/-- A second formatter constructor, recognisable by its result. -/
def ctorTwo : String → Nat → Nat := fun _ _ => 2

/-- The registry after registering the same base name twice with the two
distinct constructors. -/
def dupPrinter : Printer Nat Nat :=
  ((Printer.empty Nat Nat "korin").add "Array" ctorOne).add "Array" ctorTwo

/-- A concrete next field: node 1 links to node 2, node 2 is
null-terminated. -/
def wNext : Nat → Nat := fun p => if p = 1 then 2 else 0

/-- A concrete left field: every left reference is null. -/
def wLeft : Nat → Nat := fun _ => 0

/-- A concrete data field. -/
def wData : Nat → Nat := fun p => p * 10

/-- The address chain 1, 2, 0, 0, ... of the concrete list. -/
def wChain : Nat → Nat := fun i => if i = 0 then 1 else if i = 1 then 2 else 0

/-! ## Helper lemmas -/

theorem takeWhile_of_all {α : Type} {p : α → Bool} :
    ∀ l : List α, (∀ c ∈ l, p c = true) → l.takeWhile p = l := by
  intro l h
  induction l with
  | nil => rfl
  | cons c t ih =>
    simp only [List.takeWhile_cons, h c (List.mem_cons_self c t)]
    exact congrArg (c :: ·) (ih fun d hd => h d (List.mem_cons_of_mem c hd))

theorem dropWhile_of_all {α : Type} {p : α → Bool} :
    ∀ l : List α, (∀ c ∈ l, p c = true) → l.dropWhile p = [] := by
  intro l h
  induction l with
  | nil => rfl
  | cons c t ih =>
    simp only [List.dropWhile_cons, h c (List.mem_cons_self c t)]
    exact ih fun d hd => h d (List.mem_cons_of_mem c hd)

theorem toList_ne_nil {s : String} (h : s ≠ "") : s.toList ≠ [] := by
  intro hl
  apply h
  cases s with
  | mk data =>
    simp only [String.toList] at hl
    subst hl
    rfl

theorem lookupRegex_of_wordColon (tag : String) (h1 : tag ≠ "")
    (h2 : ∀ c ∈ tag.toList, isWordColon c) : lookupRegexMatch tag = some tag := by
  simp only [lookupRegexMatch, takeWhile_of_all _ h2, dropWhile_of_all _ h2]
  have h3 : tag.data ≠ [] := toList_ne_nil h1
  simp [List.isEmpty_iff, h3]

theorem arrayIterRun_spec {α : Type} (deref : Nat → α) (stride : Nat) (hs : 1 ≤ stride) :
    ∀ (k : Nat) (fuel idx p : Nat), k ≤ fuel →
      ArrayPrinter.iterRun deref stride fuel p (p + k * stride) idx =
        (List.range k).map (fun i => (mkLabel (idx + i), deref (p + i * stride))) := by
  intro k
  induction k with
  | zero =>
    intro fuel idx p _
    cases fuel with
    | zero => simp [ArrayPrinter.iterRun]
    | succ f => simp [ArrayPrinter.iterRun]
  | succ k ih =>
    intro fuel idx p hk
    cases fuel with
    | zero => omega
    | succ f =>
      have hne : p ≠ p + (k + 1) * stride := by
        have : 1 ≤ (k + 1) * stride := Nat.le_trans hs (Nat.le_mul_of_pos_left stride (Nat.succ_pos k))
        omega
      have hstop : p + (k + 1) * stride = (p + stride) + k * stride := by ring
      rw [ArrayPrinter.iterRun, if_neg hne, hstop, ih f (idx + 1) (p + stride) (Nat.le_of_succ_le_succ hk)]
      rw [List.range_succ_eq_map, List.map_cons, List.map_map]
      refine congrArg₂ _ ?_ ?_
      · simp [mkLabel]
      · refine List.map_congr_left fun i _ => ?_
        have e1 : idx + 1 + i = idx + (i + 1) := by omega
        have e2 : p + stride + i * stride = p + (i + 1) * stride := by ring
        simp [Function.comp, e1, e2]

theorem listIterRun_spec {α : Type} (next : Nat → Nat) (data : Nat → α) :
    ∀ (n : Nat) (a : Nat → Nat), (∀ i < n, a i ≠ 0 ∧ next (a i) = a (i + 1)) → a n = 0 →
      ∀ (fuel idx : Nat), n ≤ fuel →
        ListPrinter.iterRun next data fuel (a 0) 0 idx =
          (List.range n).map (fun i => (mkLabel (idx + i), data (a i))) := by
  intro n
  induction n with
  | zero =>
    intro a _ h0 fuel idx _
    cases fuel with
    | zero => simp [ListPrinter.iterRun]
    | succ f => simp [ListPrinter.iterRun, h0]
  | succ n ih =>
    intro a hchain h0 fuel idx hn
    cases fuel with
    | zero => omega
    | succ f =>
      have ha0 := hchain 0 (Nat.succ_pos n)
      rw [ListPrinter.iterRun, if_neg ha0.1, ha0.2]
      have hshift := ih (fun i => a (i + 1))
        (fun i hi => hchain (i + 1) (Nat.succ_lt_succ hi)) h0 f (idx + 1)
        (Nat.le_of_succ_le_succ hn)
      rw [hshift, List.range_succ_eq_map, List.map_cons, List.map_map]
      refine congrArg₂ _ ?_ ?_
      · simp
      · refine List.map_congr_left fun i _ => ?_
        have e1 : idx + 1 + i = idx + (i + 1) := by omega
        simp [Function.comp, e1]

theorem make_node_iterator_spec {α : Type} (next : Nat → Nat) (data : Nat → α) :
    ∀ (k : Nat) (b : Nat → Nat), (∀ i < k, b i ≠ 0 ∧ next (b i) = b (i + 1)) → b k = 0 →
      ∀ fuel : Nat, k ≤ fuel →
        make_node_iterator next data fuel (b 0) = (List.range k).map (fun i => data (b i)) := by
  intro k
  induction k with
  | zero =>
    intro b _ h0 fuel _
    cases fuel with
    | zero => simp [make_node_iterator]
    | succ f => simp [make_node_iterator, h0]
  | succ k ih =>
    intro b hchain h0 fuel hk
    cases fuel with
    | zero => omega
    | succ f =>
      have hb0 := hchain 0 (Nat.succ_pos k)
      rw [make_node_iterator, if_neg hb0.1, hb0.2]
      have hshift := ih (fun i => b (i + 1))
        (fun i hi => hchain (i + 1) (Nat.succ_lt_succ hi)) h0 f (Nat.le_of_succ_le_succ hk)
      rw [hshift, List.range_succ_eq_map, List.map_cons, List.map_map]
      rfl

theorem leftmostDescent_spec (left : Nat → Nat) :
    ∀ (m : Nat) (l : Nat → Nat), (∀ i < m, left (l i) ≠ 0 ∧ left (l i) = l (i + 1)) →
      left (l m) = 0 → ∀ fuel : Nat, m ≤ fuel → leftmostDescent left fuel (l 0) = l m := by
  intro m
  induction m with
  | zero =>
    intro l _ h0 fuel _
    cases fuel with
    | zero => simp [leftmostDescent]
    | succ f => simp [leftmostDescent, h0]
  | succ m ih =>
    intro l hchain h0 fuel hm
    cases fuel with
    | zero => omega
    | succ f =>
      have hl0 := hchain 0 (Nat.succ_pos m)
      rw [leftmostDescent, if_neg hl0.1, hl0.2]
      exact ih (fun i => l (i + 1))
        (fun i hi => hchain (i + 1) (Nat.succ_lt_succ hi)) h0 f (Nat.le_of_succ_le_succ hm)

theorem mapChildrenAux_length {α β : Type} (first second : α → β) :
    ∀ (l : List α) (idx : Nat), (MapPrinter.childrenAux first second l idx).length = 2 * l.length := by
  intro l
  induction l with
  | nil => intro idx; simp [MapPrinter.childrenAux]
  | cons pr rest ih =>
    intro idx
    simp only [MapPrinter.childrenAux, List.length_cons, ih]
    omega

theorem setChildrenAux_length {α : Type} :
    ∀ (l : List α) (idx : Nat), (SetPrinter.childrenAux l idx).length = l.length := by
  intro l
  induction l with
  | nil => intro idx; simp [SetPrinter.childrenAux]
  | cons x rest ih =>
    intro idx
    simp [SetPrinter.childrenAux, ih]

theorem mapChildrenAux_get {α β : Type} (first second : α → β) :
    ∀ (l : List α) (idx i : Nat) (pr : α), l.get? i = some pr →
      (MapPrinter.childrenAux first second l idx).get? (2 * i) =
        some (mkLabel (idx + 2 * i), first pr) ∧
      (MapPrinter.childrenAux first second l idx).get? (2 * i + 1) =
        some (mkLabel (idx + 2 * i + 1), second pr) := by
  intro l
  induction l with
  | nil => intro idx i pr h; simp at h
  | cons q rest ih =>
    intro idx i pr h
    cases i with
    | zero =>
      rw [List.get?_cons_zero] at h
      injection h with h
      subst h
      simp [MapPrinter.childrenAux]
    | succ i =>
      rw [List.get?_cons_succ] at h
      have e1 : 2 * (i + 1) = (2 * i) + 1 + 1 := by omega
      have e2 : 2 * (i + 1) + 1 = ((2 * i) + 1) + 1 + 1 := by omega
      have hrec := ih (idx + 2) i pr h
      constructor
      · rw [e1, MapPrinter.childrenAux, List.get?_cons_succ, List.get?_cons_succ, hrec.1]
        exact congrArg (fun t => some (mkLabel t, first pr)) (by omega)
      · rw [e2, MapPrinter.childrenAux, List.get?_cons_succ, List.get?_cons_succ, hrec.2]
        exact congrArg (fun t => some (mkLabel t, second pr)) (by omega)

theorem setChildrenAux_get {α : Type} :
    ∀ (l : List α) (idx i : Nat) (x : α), l.get? i = some x →
      (SetPrinter.childrenAux l idx).get? i = some (mkLabel (idx + i), x) := by
  intro l
  induction l with
  | nil => intro idx i x h; simp at h
  | cons q rest ih =>
    intro idx i x h
    cases i with
    | zero =>
      rw [List.get?_cons_zero] at h
      injection h with h
      subst h
      simp [SetPrinter.childrenAux]
    | succ i =>
      rw [List.get?_cons_succ] at h
      rw [SetPrinter.childrenAux, List.get?_cons_succ]
      have e1 : idx + 1 + i = idx + (i + 1) := by omega
      rw [ih (idx + 1) i x h, e1]

/-- C1: the Type Name Resolver strips a value to a tag and matches it
against an identifier followed by an optional bracketed clause: the tag
Map<int, Array<char> > resolves to the base name Map; an identifier-shaped
tag with no bracketed clause resolves to itself; a type with no tag, or a
tag failing the shape, makes Printer.__call__ return no formatter. -/
theorem resolver_tag_match :
    (lookupRegexMatch "Map<int, Array<char> >" = some "Map") ∧
    (∀ tag : String, tag ≠ "" → (∀ c ∈ tag.toList, isWordColon c) →
      lookupRegexMatch tag = some tag) ∧
    (∀ (V F : Type) (p : Printer V F) (v : GdbValue V),
      Printer.get_basic_type v.type = none → p.call v = none) ∧
    (∀ (V F : Type) (p : Printer V F) (v : GdbValue V) (tag : String),
      Printer.get_basic_type v.type = some tag → lookupRegexMatch tag = none →
      p.call v = none) := by
  refine ⟨rfl, lookupRegex_of_wordColon, ?_, ?_⟩
  · intro V F p v h
    simp [Printer.call, h]
  · intro V F p v tag h1 h2
    simp [Printer.call, h1, h2]

/-- C1 witness: an identifier-shaped tag resolves to itself, and a value
whose type has no tag resolves to no formatter. -/
theorem resolver_tag_match_witness :
    lookupRegexMatch "Vec3" = some "Vec3" ∧
    (Printer.empty Nat Nat "korin").call
      { type := sampleTypeNoTag, payload := 0, referencedPayload := 0 } = none :=
  ⟨resolver_tag_match.2.1 "Vec3" (by decide) (by decide),
   resolver_tag_match.2.2.1 Nat Nat (Printer.empty Nat Nat "korin")
     { type := sampleTypeNoTag, payload := 0, referencedPayload := 0 } rfl⟩

/-- C2: registering a base name and then resolving a value whose stripped
tag equals that name returns a formatter built by the registered
constructor; resolving a value whose tag matches the name shape but whose
base name is absent from the table returns none instead of an error. -/
theorem registry_round_trip :
    (∀ (V F : Type) (p : Printer V F) (nm : String) (tp : String → V → F) (v : GdbValue V),
      nm ≠ "" → (∀ c ∈ nm.toList, isWordColon c) →
      Printer.get_basic_type v.type = some nm →
      (p.add nm tp).call v =
        some (tp nm (if v.type.code = TypeCode.ref then v.referencedPayload else v.payload))) ∧
    (∀ (V F : Type) (p : Printer V F) (v : GdbValue V) (tag basename : String),
      Printer.get_basic_type v.type = some tag → lookupRegexMatch tag = some basename →
      p.lookup_table basename = none → p.call v = none) := by
  constructor
  · intro V F p nm tp v h1 h2 h3
    simp only [Printer.call, h3, lookupRegex_of_wordColon nm h1 h2]
    simp [Printer.add, SubPrinter.call]
  · intro V F p v tag basename h1 h2 h3
    simp only [Printer.call, h1, h2]
    simp [h3]

/-- C2 witness: after registering the Array base name, a value tagged Array
resolves to the formatter built by the registered constructor. -/
theorem registry_round_trip_witness :
    ((Printer.empty Nat Nat "korin").add "Array" ctorOne).call sampleArrayValue = some 1 := by
  have h := registry_round_trip.1 Nat Nat (Printer.empty Nat Nat "korin") "Array" ctorOne
    sampleArrayValue (by decide) (by decide) rfl
  simpa [ctorOne, sampleArrayValue, arrayTagType] using h

/-- C8 counterexample: registering the same base name twice, a subsequent
resolve constructs the formatter from the second constructor, not from the
first as the claim states. -/
theorem duplicate_registration_counterexample :
    dupPrinter.call sampleArrayValue = some 2 ∧ dupPrinter.call sampleArrayValue ≠ some 1 := by
  constructor <;> decide

/-- C8 amended: if the same base name is registered twice with two
constructors, a subsequent resolve of a value with that base name
constructs its formatter from the last registered constructor (the later
dict assignment overwrites the earlier entry). -/
theorem duplicate_registration_last_wins :
    ∀ (V F : Type) (p : Printer V F) (nm : String) (tp1 tp2 : String → V → F) (v : GdbValue V),
      nm ≠ "" → (∀ c ∈ nm.toList, isWordColon c) →
      Printer.get_basic_type v.type = some nm →
      ((p.add nm tp1).add nm tp2).call v =
        some (tp2 nm (if v.type.code = TypeCode.ref then v.referencedPayload else v.payload)) := by
  intro V F p nm tp1 tp2 v h1 h2 h3
  simp only [Printer.call, h3, lookupRegex_of_wordColon nm h1 h2]
  simp [Printer.add, SubPrinter.call]

/-- C8 amended witness: with the Array base name registered twice, the
resolve of an Array-tagged value uses the second constructor. -/
theorem duplicate_registration_last_wins_witness :
    (((Printer.empty Nat Nat "korin").add "Array" ctorOne).add "Array" ctorTwo).call
      sampleArrayValue = some 2 := by
  have h := duplicate_registration_last_wins Nat Nat (Printer.empty Nat Nat "korin") "Array"
    ctorOne ctorTwo sampleArrayValue (by decide) (by decide) rfl
  simpa [ctorTwo, sampleArrayValue, arrayTagType] using h

/-- C3: the bounded range walk of ArrayPrinter over a begin pointer, an
element stride and a count yields exactly count elements, the i-th being
the labelled dereference of the address advanced by i strides (so the
addresses strictly increase); a zero count yields the empty sequence for
every dereference function, hence without dereferencing the begin
pointer. -/
theorem array_range_walk {α : Type} :
    (∀ (deref : Nat → α) (p stride fuel : Nat),
      ArrayPrinter.children deref p 0 stride fuel = []) ∧
    (∀ (deref : Nat → α) (p count stride fuel : Nat), 1 ≤ stride → count ≤ fuel →
      ArrayPrinter.children deref p count stride fuel =
        (List.range count).map (fun i => (mkLabel i, deref (p + i * stride)))) ∧
    (∀ (p count stride i j : Nat), 1 ≤ stride → i < j → j < count →
      p + i * stride < p + j * stride) := by
  refine ⟨?_, ?_, ?_⟩
  · intro deref p stride fuel
    cases fuel with
    | zero => rfl
    | succ f => simp [ArrayPrinter.children, ArrayPrinter.iterRun]
  · intro deref p count stride fuel hs hf
    have h := arrayIterRun_spec deref stride hs count fuel 0 p hf
    simpa [ArrayPrinter.children] using h
  · intro p count stride i j hs hij hj
    have h2 : i * stride < j * stride := Nat.mul_lt_mul_of_pos_right hij (by omega)
    omega

/-- C3 witness: a walk of two elements of stride four from address 100. -/
theorem array_range_walk_witness :
    ArrayPrinter.children (fun a => a) 100 2 4 2 =
      (List.range 2).map (fun i => (mkLabel i, 100 + i * 4)) :=
  (array_range_walk (α := Nat)).2.1 (fun a => a) 100 2 4 2 (by decide) (by decide)

/-- C4: a List value with a null head produces no children; a well-formed
null-terminated list of length n with non-null nodes, whose tail is the
node reached from the head in n - 1 next steps, produces exactly n
children in chain order labelled from zero. -/
theorem list_children_walk {α : Type} (next : Nat → Nat) (data : Nat → α) :
    (∀ tail fuel : Nat, ListPrinter.children next data 0 tail fuel = []) ∧
    (∀ (a : Nat → Nat) (n fuel : Nat), 1 ≤ n → NextChain next a n → n ≤ fuel →
      ListPrinter.children next data (a 0) (a (n - 1)) fuel =
        (List.range n).map (fun i => (mkLabel i, data (a i)))) := by
  constructor
  · intro tail fuel
    simp [ListPrinter.children]
  · intro a n fuel hn hch hf
    obtain ⟨hchain, h0⟩ := hch
    have hhead : a 0 ≠ 0 := (hchain 0 (by omega)).1
    have e : n - 1 + 1 = n := by omega
    have hend : next (a (n - 1)) = 0 := by
      rw [(hchain (n - 1) (by omega)).2, e]
      exact h0
    have h := listIterRun_spec next data n a hchain h0 fuel 0 hf
    simp only [Nat.zero_add] at h
    simp [ListPrinter.children, hhead, hend, h]

/-- C4 witness: the two-node chain 1, 2 with null-terminated tail. -/
theorem list_children_walk_witness :
    ListPrinter.children wNext wData (wChain 0) (wChain 1) 2 =
      (List.range 2).map (fun i => (mkLabel i, wData (wChain i))) :=
  (list_children_walk wNext wData).2 wChain 2 2 (by decide) (by decide) (by decide)

/-- C5: the ordered tree walk yields nothing for a null root; otherwise it
descends left references from the root to the leftmost node and yields the
data fields along the next links from that node, in exactly that linked
order, stopping at a null next reference. -/
theorem tree_walk_spec {α : Type} (left next : Nat → Nat) (data : Nat → α) :
    (∀ fuelL fuelN : Nat, make_tree_iterator left next data 0 fuelL fuelN = []) ∧
    (∀ (l b : Nat → Nat) (m k fuelL fuelN : Nat),
      l 0 ≠ 0 → LeftChain left l m → b 0 = l m → NextChain next b k →
      m ≤ fuelL → k ≤ fuelN →
      make_tree_iterator left next data (l 0) fuelL fuelN =
        (List.range k).map (fun i => data (b i))) := by
  constructor
  · intro fuelL fuelN
    simp [make_tree_iterator]
  · intro l b m k fuelL fuelN hroot hlc hb0 hnc hfl hfn
    obtain ⟨hlchain, hl0⟩ := hlc
    obtain ⟨hnchain, hn0⟩ := hnc
    unfold make_tree_iterator
    rw [if_neg hroot, leftmostDescent_spec left m l hlchain hl0 fuelL hfl, ← hb0]
    exact make_node_iterator_spec next data k b hnchain hn0 fuelN hfn

/-- C5 witness: a root with a null left reference whose next chain holds
two nodes. -/
theorem tree_walk_spec_witness :
    make_tree_iterator wLeft wNext wData 1 1 2 =
      (List.range 2).map (fun i => wData (wChain i)) :=
  (tree_walk_spec wLeft wNext wData).2 (fun _ => 1) wChain 0 2 1 2
    (by decide) (by decide) rfl (by decide) (by decide) (by decide)

/-- C6: when numNodes equals the number of nodes the tree walk reaches, the
map children sequence holds exactly twice numNodes entries and the set
children sequence exactly numNodes entries, and the i-th enumerated pair
emits its first field at position 2 i and its second field right after. -/
theorem map_set_children_counts {α β : Type} (left next : Nat → Nat) (data : Nat → α)
    (first second : α → β) (root fuelL fuelN numNodes : Nat)
    (hwf : numNodes = (make_tree_iterator left next data root fuelL fuelN).length) :
    (MapPrinter.children left next data first second root fuelL fuelN).length = 2 * numNodes ∧
    (SetPrinter.children left next data root fuelL fuelN).length = numNodes ∧
    (∀ (i : Nat) (pr : α),
      (make_tree_iterator left next data root fuelL fuelN).get? i = some pr →
      (MapPrinter.children left next data first second root fuelL fuelN).get? (2 * i) =
        some (mkLabel (2 * i), first pr) ∧
      (MapPrinter.children left next data first second root fuelL fuelN).get? (2 * i + 1) =
        some (mkLabel (2 * i + 1), second pr) ∧
      (SetPrinter.children left next data root fuelL fuelN).get? i =
        some (mkLabel i, pr)) := by
  refine ⟨?_, ?_, ?_⟩
  · simp [MapPrinter.children, mapChildrenAux_length, hwf]
  · simp [SetPrinter.children, setChildrenAux_length, hwf]
  · intro i pr h
    have hm := mapChildrenAux_get first second _ 0 i pr h
    have hs := setChildrenAux_get _ 0 i pr h
    simp only [Nat.zero_add] at hm hs
    exact ⟨hm.1, hm.2, hs⟩

/-- C6 witness: the two-node concrete tree gives four map children. -/
theorem map_set_children_counts_witness :
    (MapPrinter.children wLeft wNext wData (fun a => a) (fun a => 100 + a) 1 1 2).length = 2 * 2 :=
  (map_set_children_counts wLeft wNext wData (fun a => a) (fun a => 100 + a) 1 1 2 2 (by decide)).1

/-- C7: the quaternion constructor decomposes a value into the angle twice
the arccosine of w and the axis scaled by the reciprocal sine; a zero sine
(for example the identity quaternion) raises the division error inside the
constructor, which catches it and reports angle zero and a zero axis, so a
division error never reaches the caller. -/
theorem quat_degenerate_recovery :
    (∀ w x y z : ℝ, QuatPrinter.initQuat w x y z ≠ Except.error PyError.zeroDivisionError) ∧
    (QuatPrinter.initQuat 1 0 0 0 = Except.ok (0, 0, 0, 0)) ∧
    (∀ w x y z : ℝ, -1 ≤ w → w ≤ 1 → Real.sin (Real.arccos w) = 0 →
      QuatPrinter.initQuat w x y z = Except.ok (0, 0, 0, 0)) ∧
    (∀ w x y z : ℝ, -1 ≤ w → w ≤ 1 → Real.sin (Real.arccos w) ≠ 0 →
      QuatPrinter.initQuat w x y z =
        Except.ok (2 * Real.arccos w, x / Real.sin (Real.arccos w),
          y / Real.sin (Real.arccos w), z / Real.sin (Real.arccos w))) := by
  have hdeg : ∀ w x y z : ℝ, -1 ≤ w → w ≤ 1 → Real.sin (Real.arccos w) = 0 →
      QuatPrinter.initQuat w x y z = Except.ok (0, 0, 0, 0) := by
    intro w x y z ha hb h2
    have h1 : ¬(w < -1 ∨ 1 < w) := by push_neg; constructor <;> linarith
    unfold QuatPrinter.initQuat QuatPrinter.tryBody
    simp [h1, h2]
  refine ⟨?_, ?_, hdeg, ?_⟩
  · intro w x y z
    unfold QuatPrinter.initQuat QuatPrinter.tryBody
    by_cases h1 : w < -1 ∨ 1 < w
    · simp [h1]
    · by_cases h2 : Real.sin (Real.arccos w) = 0
      · simp [h1, h2]
      · simp [h1, h2]
  · exact hdeg 1 0 0 0 (by norm_num) (by norm_num)
      (by rw [Real.arccos_one, Real.sin_zero])
  · intro w x y z ha hb h2
    have h1 : ¬(w < -1 ∨ 1 < w) := by push_neg; constructor <;> linarith
    unfold QuatPrinter.initQuat QuatPrinter.tryBody
    simp [h1, h2, mul_comm]
    exact ⟨by ring, by ring, by ring⟩

/-- C7 witness: w equal to minus one has a zero sine and recovers to the
zero angle and zero axis. -/
theorem quat_degenerate_recovery_witness :
    QuatPrinter.initQuat (-1) 2 3 4 = Except.ok (0, 0, 0, 0) :=
  quat_degenerate_recovery.2.2.1 (-1) 2 3 4 (by norm_num) (by norm_num)
    (by rw [Real.arccos_neg_one, Real.sin_pi])

/-- C9 evaluation: for a char-element array the summary of the source is
the empty string, the unfinished TODO branch, and not the rendered buffer
contents the specification describes. -/
theorem array_string_summary_stub :
    ArrayPrinter.to_string true "char" 2 4 = "" ∧
    ArrayPrinter.to_string true "char" 2 4 ≠ "hi" := by
  constructor <;> decide

/-- C10: a w field outside the closed unit interval makes the arccosine
raise the domain error, which the handler (catching only the division
error) lets propagate out of the constructor. -/
theorem quat_domain_error (w x y z : ℝ) (h : w < -1 ∨ 1 < w) :
    QuatPrinter.initQuat w x y z = Except.error PyError.valueError := by
  unfold QuatPrinter.initQuat QuatPrinter.tryBody
  simp [h]

/-- C10 witness: w equal to two raises the domain error. -/
theorem quat_domain_error_witness :
    QuatPrinter.initQuat 2 0 0 0 = Except.error PyError.valueError :=
  quat_domain_error 2 0 0 0 (Or.inr (by norm_num))
